import Mathlib

/-!
Shallow embedding of the outbound-request governor (`SafeRequestManager`,
src `safe-request` module) of the zero-mapper repository, together with
proofs about its retry policy, delay computation, per-domain scheduling
and policy resolution.

Conventions of the embedding:
* JavaScript numbers used for durations/delays are modelled as `ℚ`
  (all arithmetic in the source on these values is exact on rationals);
  retry counters and concurrency caps are `ℕ`, HTTP status codes are `ℤ`.
* Optional fields (`maxRetries?`, `baseDelay?`, ...) become `Option`;
  the JavaScript `x || d` idiom on numbers (which treats `0` as falsy)
  is `jsOrN` / `jsOrQ`.
* `Math.random()` draws are passed in explicitly as a `ℚ` sample
  (intended range `[0, 1)`); theorems quantify over the sample.
* `Date.now()` is passed in explicitly as `now : ℚ`; `await delay(ms)`
  is modelled as advancing time by exactly `ms`.
* The `axios(...)` call of each attempt is modelled by an oracle
  `outcomes : ℕ → Except ErrorMod ResponseMod` giving the outcome of the
  k-th attempt (`Except.error` = promise rejection).
* `p-limit` concurrency admission is modelled by a trace validity
  predicate (`validTrace`): a callback may start under a limiter only
  when that limiter's active count is below its cap, and only started
  callbacks finish.
-/

namespace SafeRequest

/-- `RateLimiterConfig` from the source: all fields optional. -/
structure RateLimiterConfig where
  maxRetries : Option ℕ
  baseDelay : Option ℚ
  maxDelay : Option ℚ
  timeout : Option ℚ
  concurrency : Option ℕ
  deriving Repr, DecidableEq

/-- The slice of an axios response the governor reads: `status` and the
`headers['retry-after']` entry (absent header = `none`). -/
structure ResponseMod where
  status : ℤ
  retryAfter : Option String
  deriving Repr, DecidableEq

/-- The slice of an axios error the governor reads: `error.response`
(absent for network-level failures) and `error.code`. -/
structure ErrorMod where
  response : Option ResponseMod
  code : Option String
  deriving Repr, DecidableEq

/-- JavaScript `o || d` on an optional natural: `0` and `undefined` are falsy. -/
def jsOrN (o : Option ℕ) (d : ℕ) : ℕ :=
  match o with
  | some n => if n = 0 then d else n
  | none => d

/-- JavaScript `o || d` on an optional rational: `0` and `undefined` are falsy. -/
def jsOrQ (o : Option ℚ) (d : ℚ) : ℚ :=
  match o with
  | some x => if x = 0 then d else x
  | none => d

/-- The `default` policy registered last in the constructor. -/
def defaultConfig : RateLimiterConfig :=
  ⟨some 3, some 1000, some 20000, some 10000, some 2⟩

/-- The rate-limit registry built by the constructor: five `configureRateLimit`
calls, in order, with the exact literals of the source. -/
def rateLimitConfigList : List (String × RateLimiterConfig) :=
  [ ("graphql.anilist.co", ⟨some 5, some 1000, some 30000, some 10000, some 2⟩),
    ("api.myanimelist.net", ⟨some 5, some 1000, some 30000, some 10000, some 1⟩),
    ("api.themoviedb.org", ⟨some 5, some 500, some 15000, some 10000, some 3⟩),
    ("localhost", ⟨some 3, some 500, some 10000, some 5000, some 5⟩),
    ("default", defaultConfig) ]

/-- `getConfig`: `this.rateLimitConfig.get(domain) || this.rateLimitConfig.get('default')!`
(a config object is always truthy, so `||` is a fallback on absence). -/
def getConfig (domain : String) : RateLimiterConfig :=
  (rateLimitConfigList.lookup domain).getD defaultConfig

/-- The limiters map built by the constructor: `configureRateLimit` stores
`pLimit(config.concurrency || 2)` under the same keys.  We record each
limiter by its key and cap; limiter identity is its key. -/
def limitersList : List (String × ℕ) :=
  rateLimitConfigList.map (fun p => (p.1, jsOrN p.2.concurrency 2))

/-- `getLimiter`: `this.limiters.get(domain) || this.limiters.get('default')!`.
Returns the key of the limiter actually used for `domain`: the domain's own
entry when configured, otherwise the shared `"default"` limiter. -/
def getLimiterKey (domain : String) : String :=
  if (limitersList.lookup domain).isSome then domain else "default"

/-- Cap of the limiter registered under `key` (the default limiter's cap if
the key is absent; only used at registered keys). -/
def capOf (key : String) : ℕ :=
  (limitersList.lookup key).getD 2

/-- `shouldRetry(error, retryCount, maxRetries)`, decision order exactly as in
the source. -/
def shouldRetry (error : ErrorMod) (retryCount maxRetries : ℕ) : Bool :=
  if retryCount ≥ maxRetries then false
  else
    match error.response with
    | none => true
    | some resp =>
      if resp.status = 429 ∨ resp.status = 503 ∨ resp.status = 502 ∨ resp.status = 504 then
        true
      else if error.code = some "ECONNABORTED" ∨ error.code = some "ETIMEDOUT" then
        true
      else if 400 ≤ resp.status ∧ resp.status < 500 then
        false
      else if 500 ≤ resp.status then
        true
      else
        false

/-- `calculateBackoffDelay(retryCount, baseDelay, maxDelay)`; `rand` is the
`Math.random()` sample of this call. -/
def calculateBackoffDelay (retryCount : ℕ) (baseDelay maxDelay : ℚ) (rand : ℚ) : ℚ :=
  let exponentialDelay := baseDelay * 2 ^ retryCount
  let jitter := rand * baseDelay * (1 / 2)
  min (exponentialDelay + jitter) maxDelay

/-- Value of a (non-empty) run of decimal digits. -/
def parseDigits (cs : List Char) : Option ℕ :=
  let ds := cs.takeWhile Char.isDigit
  if ds = [] then none
  else some (ds.foldl (fun acc c => acc * 10 + (c.toNat - 48)) 0)

/-- JavaScript `parseInt(s)` (radix 10, as used on `retry-after` header
values): skip leading whitespace, optional sign, then leading decimal
digits; `none` models `NaN`. -/
def parseIntJS (s : String) : Option ℤ :=
  let cs := s.data.dropWhile (fun c => c = ' ' ∨ c = '\t' ∨ c = '\n' ∨ c = '\r')
  match cs with
  | '-' :: rest => (parseDigits rest).map (fun n => -(n : ℤ))
  | '+' :: rest => (parseDigits rest).map (fun n => (n : ℤ))
  | _ => (parseDigits cs).map (fun n => (n : ℤ))

/-- `getRetryDelay(error, retryCount, config)`: honor a parseable, strictly
positive `retry-after` header (seconds, converted to ms and capped at
`config.maxDelay || 30000`), otherwise exponential backoff.  `rand` is the
`Math.random()` sample used if backoff is taken. -/
def getRetryDelay (error : ErrorMod) (retryCount : ℕ) (config : RateLimiterConfig)
    (rand : ℚ) : ℚ :=
  let retryAfter := error.response.bind ResponseMod.retryAfter
  let fallback := calculateBackoffDelay retryCount
    (jsOrQ config.baseDelay 1000) (jsOrQ config.maxDelay 30000) rand
  match retryAfter with
  | some s =>
    if s ≠ "" then
      match parseIntJS s with
      | some n =>
        let retryAfterMs : ℚ := (n : ℚ) * 1000
        if 0 < retryAfterMs then min retryAfterMs (jsOrQ config.maxDelay 30000)
        else fallback
      | none => fallback
    else fallback
  | none => fallback

/-- The effective retry budget of the loop: `rateLimitConfig.maxRetries || 3`. -/
def effMaxRetries (cfg : RateLimiterConfig) : ℕ :=
  jsOrN cfg.maxRetries 3

/-- The `while (true)` retry loop of `request`, run from retry count `rc`.
The attempt index equals the current retry count (the counter is incremented
exactly once per failed-and-retried attempt).  `gas` is the structural
bound `maxRetries - rc`, which the loop itself maintains: the recursive call
is only reached when `shouldRetry` holds, which requires `rc < maxRetries`,
so the `gas = 0` fallback inside the retry branch is unreachable whenever
`gas = maxRetries - rc`.  Returns the final
result (`.ok` response / `.error` last error), the number of attempts
performed from `rc` on, and the list of backoff sleeps in order. -/
def requestLoopAux (outcomes : ℕ → Except ErrorMod ResponseMod) (rands : ℕ → ℚ)
    (cfg : RateLimiterConfig) : ℕ → ℕ → Except ErrorMod ResponseMod × ℕ × List ℚ
  | gas, rc =>
    match outcomes rc with
    | .ok r => (.ok r, 1, [])
    | .error e =>
      if shouldRetry e rc (effMaxRetries cfg) then
        match gas with
        | 0 => (.error e, 1, [])
        | g + 1 =>
          let d := getRetryDelay e rc cfg (rands rc)
          let rest := requestLoopAux outcomes rands cfg g (rc + 1)
          (rest.1, rest.2.1 + 1, d :: rest.2.2)
      else (.error e, 1, [])

/-- The retry loop of `request` as entered by the limiter callback:
`retryCount = 0`, budget `maxRetries = cfg.maxRetries || 3`. -/
def requestLoop (outcomes : ℕ → Except ErrorMod ResponseMod) (rands : ℕ → ℚ)
    (cfg : RateLimiterConfig) : Except ErrorMod ResponseMod × ℕ × List ℚ :=
  requestLoopAux outcomes rands cfg (effMaxRetries cfg) 0

/-- `minRequestInterval = 100` (fixed global floor, ms). -/
def minRequestInterval : ℚ := 100

/-- `enforceRateLimit(domain)` as a transformer of the `lastRequestTime` map
(total function, absent entries read as `0` via `get(domain) || 0`) at
current time `now`.  `await delay(waitTime)` advances time by exactly
`waitTime`; the second `Date.now()` (stored as the new watermark) is then
`now + waitTime`, which is also the time at which the HTTP dispatch that
follows is issued.  Returns (updated map, dispatch time). -/
def enforceRateLimit (lastRequestTime : String → ℚ) (domain : String) (now : ℚ) :
    (String → ℚ) × ℚ :=
  let lastRequest := lastRequestTime domain
  let timeSinceLastRequest := now - lastRequest
  let waitTime :=
    if timeSinceLastRequest < minRequestInterval then
      minRequestInterval - timeSinceLastRequest
    else 0
  let dispatchTime := now + waitTime
  (fun d => if d = domain then dispatchTime else lastRequestTime d, dispatchTime)

/-- The empty `lastRequestTime` map at construction. -/
def lastRequestTime0 : String → ℚ := fun _ => 0

/-- Hostname-relevant components of a WHATWG `URL` object. -/
structure URLParts where
  scheme : String
  hostname : String
  port : Option ℕ
  path : String
  deriving Repr, DecidableEq

/-- `getDomain(url)`: `new URL(url).hostname`, or `'default'` when the `URL`
constructor throws.  The platform URL parser is passed in as `parse`
(`none` = constructor throws). -/
def getDomain (parse : String → Option URLParts) (url : String) : String :=
  match parse url with
  | some urlObj => urlObj.hostname
  | none => "default"

/-- Domain resolution at the top of `request`: `const url = config.url || ''`
followed by `getDomain(url)` (an absent or empty `url` is falsy). -/
def resolveDomain (parse : String → Option URLParts) (configUrl : Option String) : String :=
  getDomain parse (match configUrl with
    | some u => if u = "" then "" else u
    | none => "")

/-- Events of one `request(config)` execution, in program order. -/
inductive REvent where
  /-- the limiter grants the callback a slot (`limiter(async () => ...)` starts) -/
  | acquire
  /-- `await this.enforceRateLimit(domain)` (the spacing wait) -/
  | rateWait
  /-- the `await axios(requestConfig)` of attempt `k` -/
  | httpCall (k : ℕ)
  /-- `await this.delay(delay)` backoff sleep before the next attempt -/
  | sleep (ms : ℚ)
  /-- the callback settles and the limiter slot is released -/
  | release
  deriving Repr, DecidableEq

/-- Events emitted by the retry loop body from retry count `rc`
(same recursion structure as `requestLoopAux`). -/
def attemptEvents (outcomes : ℕ → Except ErrorMod ResponseMod) (rands : ℕ → ℚ)
    (cfg : RateLimiterConfig) : ℕ → ℕ → List REvent
  | gas, rc =>
    REvent.rateWait :: REvent.httpCall rc ::
      (match outcomes rc with
      | .ok _ => []
      | .error e =>
        if shouldRetry e rc (effMaxRetries cfg) then
          match gas with
          | 0 => []
          | g + 1 =>
            REvent.sleep (getRetryDelay e rc cfg (rands rc)) ::
              attemptEvents outcomes rands cfg g (rc + 1)
        else [])

/-- The full event trace of one `request` execution.  The whole retry loop —
`enforceRateLimit`, the HTTP attempts and the backoff sleeps — runs inside
the `limiter(...)` callback, so the limiter slot is acquired once before the
first event of the loop and released only when the callback settles. -/
def requestTrace (outcomes : ℕ → Except ErrorMod ResponseMod) (rands : ℕ → ℚ)
    (cfg : RateLimiterConfig) : List REvent :=
  REvent.acquire :: attemptEvents outcomes rands cfg (effMaxRetries cfg) 0 ++ [REvent.release]

/-- Start/finish events of limiter callbacks across many `request` calls:
`start d` = the limiter serving domain `d` grants a slot and the HTTP call
to `d` begins; `finish d` = that callback settles and the slot is released. -/
inductive CEv where
  | start (domain : String)
  | finish (domain : String)
  deriving Repr, DecidableEq

/-- Test for a `start` event of a domain served by limiter `key` and
satisfying `q`. -/
def evIsStartOf (key : String) (q : String → Bool) : CEv → Bool
  | CEv.start d => (getLimiterKey d == key) && q d
  | CEv.finish _ => false

/-- Test for a `finish` event of a domain served by limiter `key` and
satisfying `q`. -/
def evIsFinishOf (key : String) (q : String → Bool) : CEv → Bool
  | CEv.start _ => false
  | CEv.finish d => (getLimiterKey d == key) && q d

/-- Test that an event belongs to domain `d`. -/
def evOfDomain (d : String) : CEv → Bool
  | CEv.start x => x == d
  | CEv.finish x => x == d

/-- Number of `start` events for domain `d` in a trace. -/
def startsD (d : String) (t : List CEv) : ℕ :=
  t.countP (fun e => e == CEv.start d)

/-- Number of `finish` events for domain `d` in a trace. -/
def finishesD (d : String) (t : List CEv) : ℕ :=
  t.countP (fun e => e == CEv.finish d)

/-- Calls to domain `d` in flight after trace `t`. -/
def inFlight (d : String) (t : List CEv) : ℤ :=
  (startsD d t : ℤ) - (finishesD d t : ℤ)

/-- Number of `start` events of domains served by limiter `key`, restricted to
domains satisfying `q` (used with `q = fun _ => true` for the limiter's
active count). -/
def startsKeyP (key : String) (q : String → Bool) (t : List CEv) : ℕ :=
  t.countP (evIsStartOf key q)

/-- Number of `finish` events of domains served by limiter `key`, restricted
to domains satisfying `q`. -/
def finishesKeyP (key : String) (q : String → Bool) (t : List CEv) : ℕ :=
  t.countP (evIsFinishOf key q)

/-- `activeCount` of the limiter registered under `key` after trace `t`. -/
def activeKey (key : String) (t : List CEv) : ℤ :=
  (startsKeyP key (fun _ => true) t : ℤ) - (finishesKeyP key (fun _ => true) t : ℤ)

/-- Admissibility of the next event after prefix `pre`, per `p-limit`
semantics: a callback starts only while its limiter's active count is below
the limiter's cap (`pLimit(concurrency || 2)`), and only a callback that is
in flight can settle. -/
def stepOk (pre : List CEv) : CEv → Bool :=
  fun e => match e with
  | CEv.start d => activeKey (getLimiterKey d) pre < (capOf (getLimiterKey d) : ℤ)
  | CEv.finish d => 0 < inFlight d pre

/-- `validAux pre t`: every event of `t` is admissible after the events
preceding it (given the already-performed prefix `pre`). -/
def validAux : List CEv → List CEv → Bool
  | _, [] => true
  | pre, e :: rest => stepOk pre e && validAux (pre ++ [e]) rest

/-- A trace of limiter events the `p-limit` instances can actually produce. -/
def validTrace (t : List CEv) : Bool :=
  validAux [] t

/-- The retryable failure conditions: no response, rate-limit or transient
gateway status (429/502/503/504), a timeout code, or another 5xx status. -/
def RetryableOutcome (e : ErrorMod) : Bool :=
  match e.response with
  | none => true
  | some resp =>
    resp.status = 429 ∨ resp.status = 502 ∨ resp.status = 503 ∨ resp.status = 504
      ∨ e.code = some "ECONNABORTED" ∨ e.code = some "ETIMEDOUT"
      ∨ 500 ≤ resp.status

/-- Invariant carried along a valid limiter trace: finishes never outrun
starts on any set of domains of any one limiter, and no limiter's active
count exceeds its cap. -/
def TraceInv (t : List CEv) : Prop :=
  (∀ k q, finishesKeyP k q t ≤ startsKeyP k q t) ∧
  (∀ k, activeKey k t ≤ (capOf k : ℤ))

lemma shouldRetry_lt {e : ErrorMod} {rc mR : ℕ} (h : shouldRetry e rc mR = true) :
    rc < mR := by
  by_contra hge
  unfold shouldRetry at h
  rw [if_pos (Nat.le_of_not_lt hge)] at h
  exact Bool.false_ne_true h

lemma shouldRetry_of_retryable {e : ErrorMod} {rc mR : ℕ}
    (hr : RetryableOutcome e = true) (hlt : rc < mR) :
    shouldRetry e rc mR = true := by
  unfold RetryableOutcome at hr
  unfold shouldRetry
  rw [if_neg (by omega : ¬ rc ≥ mR)]
  cases hre : e.response with
  | none => simp
  | some resp =>
    rw [hre] at hr
    dsimp only
    simp only [decide_eq_true_eq] at hr
    by_cases h1 : resp.status = 429 ∨ resp.status = 503 ∨ resp.status = 502 ∨ resp.status = 504
    · simp [h1]
    · rw [if_neg h1]
      by_cases h2 : e.code = some "ECONNABORTED" ∨ e.code = some "ETIMEDOUT"
      · simp [h2]
      · rw [if_neg h2]
        have h5 : 500 ≤ resp.status := by
          rcases hr with h | h | h | h | h | h | h
          · exact absurd (Or.inl h) h1
          · exact absurd (Or.inr (Or.inr (Or.inl h))) h1
          · exact absurd (Or.inr (Or.inl h)) h1
          · exact absurd (Or.inr (Or.inr (Or.inr h))) h1
          · exact absurd (Or.inl h) h2
          · exact absurd (Or.inr h) h2
          · exact h
        rw [if_neg (by omega), if_pos h5]

lemma shouldRetry_clientError {e : ErrorMod} {resp : ResponseMod} {rc mR : ℕ}
    (hresp : e.response = some resp) (h4 : 400 ≤ resp.status) (h5 : resp.status < 500)
    (h429 : resp.status ≠ 429)
    (hc1 : e.code ≠ some "ECONNABORTED") (hc2 : e.code ≠ some "ETIMEDOUT") :
    shouldRetry e rc mR = false := by
  unfold shouldRetry
  split
  · rfl
  · rw [hresp]
    dsimp only
    have hs : ¬ (resp.status = 429 ∨ resp.status = 503 ∨ resp.status = 502 ∨
        resp.status = 504) := by omega
    have hc : ¬ (e.code = some "ECONNABORTED" ∨ e.code = some "ETIMEDOUT") := by
      simp [hc1, hc2]
    rw [if_neg hs, if_neg hc, if_pos ⟨h4, h5⟩]

lemma requestLoop_noRetry {outcomes : ℕ → Except ErrorMod ResponseMod} {rands : ℕ → ℚ}
    {cfg : RateLimiterConfig} {e : ErrorMod}
    (h0 : outcomes 0 = Except.error e)
    (hsr : shouldRetry e 0 (effMaxRetries cfg) = false) :
    requestLoop outcomes rands cfg = (Except.error e, 1, []) := by
  unfold requestLoop requestLoopAux
  rw [h0]
  dsimp only
  rw [hsr]
  simp

lemma requestLoopAux_allfail (outcomes : ℕ → Except ErrorMod ResponseMod)
    (rands : ℕ → ℚ) (cfg : RateLimiterConfig) (errs : ℕ → ErrorMod)
    (houts : ∀ k, outcomes k = Except.error (errs k))
    (hretry : ∀ k, RetryableOutcome (errs k) = true) :
    ∀ gas rc, gas + rc = effMaxRetries cfg →
      (requestLoopAux outcomes rands cfg gas rc).1
          = Except.error (errs (effMaxRetries cfg)) ∧
      (requestLoopAux outcomes rands cfg gas rc).2.1 = gas + 1 := by
  intro gas
  induction gas with
  | zero =>
    intro rc hrc
    have hrc0 : rc = effMaxRetries cfg := by omega
    have hsr : shouldRetry (errs rc) rc (effMaxRetries cfg) = false := by
      unfold shouldRetry
      rw [if_pos (by omega)]
    unfold requestLoopAux
    rw [houts rc]
    dsimp only
    rw [hsr]
    simp [hrc0]
  | succ g ih =>
    intro rc hrc
    have hlt : rc < effMaxRetries cfg := by omega
    have hsr : shouldRetry (errs rc) rc (effMaxRetries cfg) = true :=
      shouldRetry_of_retryable (hretry rc) hlt
    have hrec := ih (rc + 1) (by omega)
    unfold requestLoopAux
    rw [houts rc]
    dsimp only
    rw [hsr]
    simp only [if_true]
    constructor
    · exact hrec.1
    · simp [hrec.2]

/-- C1: for every domain whose resolved policy has `maxRetries = N`, a request
all of whose attempts fail with a retryable outcome performs exactly `N + 1`
attempts of the underlying HTTP call and then rejects with the error observed
on the last attempt (never a null or partial result). -/
theorem c1_retry_exhaustion (domain : String) (N : ℕ)
    (hN : (getConfig domain).maxRetries = some N)
    (outcomes : ℕ → Except ErrorMod ResponseMod) (rands : ℕ → ℚ) (errs : ℕ → ErrorMod)
    (houts : ∀ k, outcomes k = Except.error (errs k))
    (hretry : ∀ k, RetryableOutcome (errs k) = true) :
    (requestLoop outcomes rands (getConfig domain)).2.1 = N + 1 ∧
    (requestLoop outcomes rands (getConfig domain)).1 = Except.error (errs N) := by
  have heff : effMaxRetries (getConfig domain) = N := by
    unfold getConfig rateLimitConfigList at hN ⊢
    simp only [List.lookup] at hN ⊢
    repeat' split at hN
    all_goals simp_all [effMaxRetries, jsOrN, defaultConfig, Option.getD]
    all_goals omega
  have h := requestLoopAux_allfail outcomes rands (getConfig domain) errs houts hretry
    (effMaxRetries (getConfig domain)) 0 (by omega)
  unfold requestLoop
  rw [heff] at h ⊢
  exact ⟨h.2, h.1⟩

/-- C1 witness: the `default` policy has `maxRetries = 3`; a request whose
attempts all fail with a network-level error is attempted `4` times and
rejects with that error. -/
theorem c1_retry_exhaustion_witness :
    (getConfig "unknown.example").maxRetries = some 3 ∧
    (requestLoop (fun _ => Except.error ⟨none, none⟩) (fun _ => 0)
        (getConfig "unknown.example")).2.1 = 3 + 1 ∧
    (requestLoop (fun _ => Except.error ⟨none, none⟩) (fun _ => 0)
        (getConfig "unknown.example")).1 = Except.error ⟨none, none⟩ := by
  refine ⟨by decide, ?_⟩
  have h := c1_retry_exhaustion "unknown.example" 3 (by decide)
    (fun _ => Except.error ⟨none, none⟩) (fun _ => 0) (fun _ => ⟨none, none⟩)
    (fun _ => rfl) (fun _ => rfl)
  exact h

/-- C7: a failed attempt whose response carries a client-error status other
than 429 and whose outcome is not classified as a timeout is rejected to the
caller after exactly one attempt, regardless of the remaining retry budget. -/
theorem c7_nonretryable_client_error (cfg : RateLimiterConfig)
    (outcomes : ℕ → Except ErrorMod ResponseMod) (rands : ℕ → ℚ)
    (e : ErrorMod) (resp : ResponseMod)
    (hresp : e.response = some resp) (h4 : 400 ≤ resp.status) (h5 : resp.status < 500)
    (h429 : resp.status ≠ 429)
    (hc1 : e.code ≠ some "ECONNABORTED") (hc2 : e.code ≠ some "ETIMEDOUT")
    (h0 : outcomes 0 = Except.error e) :
    requestLoop outcomes rands cfg = (Except.error e, 1, []) :=
  requestLoop_noRetry h0 (shouldRetry_clientError hresp h4 h5 h429 hc1 hc2)

/-- C7 witness: a 404 response is rejected after one attempt even under the
`maxRetries = 5` AniList policy. -/
theorem c7_nonretryable_client_error_witness :
    requestLoop (fun _ => Except.error ⟨some ⟨404, none⟩, none⟩) (fun _ => 0)
        (getConfig "graphql.anilist.co")
      = (Except.error ⟨some ⟨404, none⟩, none⟩, 1, []) :=
  c7_nonretryable_client_error (getConfig "graphql.anilist.co")
    (fun _ => Except.error ⟨some ⟨404, none⟩, none⟩) (fun _ => 0)
    ⟨some ⟨404, none⟩, none⟩ ⟨404, none⟩ rfl (by decide) (by decide) (by decide)
    (by decide) (by decide) rfl

/-- C5 counterexample: a response carrying a `retry-after` directive of
`R = 0` seconds is NOT honored verbatim — `parseInt('0') * 1000 = 0` fails
the `retryAfterMs > 0` guard, so the code falls back to the exponential
backoff formula (delay `1000`, the base delay), not to the clamped directive
value `0`. -/
theorem c5_counterexample :
    getRetryDelay ⟨some ⟨429, some "0"⟩, none⟩ 0 defaultConfig 0
        = calculateBackoffDelay 0 1000 20000 0 ∧
    getRetryDelay ⟨some ⟨429, some "0"⟩, none⟩ 0 defaultConfig 0 = 1000 ∧
    ¬ getRetryDelay ⟨some ⟨429, some "0"⟩, none⟩ 0 defaultConfig 0
        = min ((0 : ℚ) * 1000) (jsOrQ defaultConfig.maxDelay 30000) := by
  have hp : parseIntJS "0" = some 0 := by decide
  have h1 : getRetryDelay ⟨some ⟨429, some "0"⟩, none⟩ 0 defaultConfig 0
      = calculateBackoffDelay 0 1000 20000 0 := by
    unfold getRetryDelay
    simp only [Option.bind]
    rw [if_pos (by decide : ("0" : String) ≠ "")]
    rw [hp]
    dsimp only
    rw [if_neg (by norm_num)]
    norm_num [jsOrQ, defaultConfig]
  have h2 : calculateBackoffDelay 0 1000 20000 0 = 1000 := by
    norm_num [calculateBackoffDelay]
  refine ⟨h1, h1.trans h2, ?_⟩
  rw [h1, h2]
  norm_num [jsOrQ, defaultConfig]

/-- C5 (amended): whenever a failed attempt's response carries a
`retry-after` header that parses to a positive integer `R` (seconds), the
wait before the next attempt is `R` converted to milliseconds and clamped
above by `config.maxDelay || 30000`, independent of the attempt index and
of the jitter sample — the exponential-backoff formula is not used.  A
directive of `R = 0` instead falls back to exponential backoff. -/
theorem c5_retry_after_honored (e : ErrorMod) (resp : ResponseMod) (s : String)
    (R : ℤ) (rc : ℕ) (cfg : RateLimiterConfig) (rand : ℚ)
    (hresp : e.response = some resp) (hhdr : resp.retryAfter = some s)
    (hparse : parseIntJS s = some R) (hR : 1 ≤ R) :
    getRetryDelay e rc cfg rand = min ((R : ℚ) * 1000) (jsOrQ cfg.maxDelay 30000) := by
  have hs : s ≠ "" := by
    intro h
    rw [h] at hparse
    simp [parseIntJS, parseDigits] at hparse
  have hpos : (0 : ℚ) < (R : ℚ) * 1000 := by
    have : (1 : ℚ) ≤ (R : ℚ) := by exact_mod_cast hR
    nlinarith
  unfold getRetryDelay
  rw [hresp]
  simp only [Option.bind]
  rw [hhdr]
  dsimp only
  rw [if_pos hs, hparse]
  dsimp only
  rw [if_pos hpos]

/-- C5 witness: a `retry-after: 7` directive under the default policy yields
a wait of exactly 7000 ms for any retry index and jitter sample. -/
theorem c5_retry_after_honored_witness :
    parseIntJS "7" = some 7 ∧ (1 : ℤ) ≤ 7 ∧
    getRetryDelay ⟨some ⟨429, some "7"⟩, none⟩ 2 defaultConfig (1 / 3) = 7000 := by
  refine ⟨by decide, by decide, ?_⟩
  have h := c5_retry_after_honored ⟨some ⟨429, some "7"⟩, none⟩ ⟨429, some "7"⟩ "7" 7 2
    defaultConfig (1 / 3) rfl rfl (by decide) (by decide)
  rw [h]
  norm_num [defaultConfig, jsOrQ]

/-- C6: for a retry at pre-increment count `k` whose outcome carries no
`retry-after` directive, the delay equals
`min(baseDelay * 2^k + jitter, maxDelay)` with `jitter = rand * baseDelay * 0.5`,
so for every jitter sample in `[0, 1]` the delay lies within
`[baseDelay * 2^k, baseDelay * 2^k + baseDelay * 0.5]` clamped above by
`maxDelay`; and the first sleep of the retry loop uses exponent `0`
(the pre-increment count), waiting about `baseDelay`, not `2 * baseDelay`. -/
theorem c6_backoff_formula (e : ErrorMod) (k : ℕ) (cfg : RateLimiterConfig) (rand : ℚ)
    (hhdr : e.response.bind ResponseMod.retryAfter = none)
    (hr0 : 0 ≤ rand) (hr1 : rand ≤ 1)
    (hb : 0 ≤ jsOrQ cfg.baseDelay 1000) :
    getRetryDelay e k cfg rand
        = min (jsOrQ cfg.baseDelay 1000 * 2 ^ k + rand * jsOrQ cfg.baseDelay 1000 * (1 / 2))
            (jsOrQ cfg.maxDelay 30000)
    ∧ min (jsOrQ cfg.baseDelay 1000 * 2 ^ k) (jsOrQ cfg.maxDelay 30000)
        ≤ getRetryDelay e k cfg rand
    ∧ getRetryDelay e k cfg rand
        ≤ min (jsOrQ cfg.baseDelay 1000 * 2 ^ k + jsOrQ cfg.baseDelay 1000 * (1 / 2))
            (jsOrQ cfg.maxDelay 30000)
    ∧ (∀ outcomes rands, outcomes 0 = Except.error e → rands 0 = rand →
        shouldRetry e 0 (effMaxRetries cfg) = true →
        (requestLoop outcomes rands cfg).2.2.head?
          = some (calculateBackoffDelay 0 (jsOrQ cfg.baseDelay 1000)
              (jsOrQ cfg.maxDelay 30000) rand)) := by
  have heq : getRetryDelay e k cfg rand
      = min (jsOrQ cfg.baseDelay 1000 * 2 ^ k + rand * jsOrQ cfg.baseDelay 1000 * (1 / 2))
          (jsOrQ cfg.maxDelay 30000) := by
    unfold getRetryDelay
    rw [hhdr]
    simp [calculateBackoffDelay]
  have hjit0 : 0 ≤ rand * jsOrQ cfg.baseDelay 1000 * (1 / 2) := by
    have := mul_nonneg hr0 hb
    nlinarith
  have hjit1 : rand * jsOrQ cfg.baseDelay 1000 * (1 / 2)
      ≤ jsOrQ cfg.baseDelay 1000 * (1 / 2) := by nlinarith
  refine ⟨heq, ?_, ?_, ?_⟩
  · rw [heq]
    exact min_le_min (by nlinarith) le_rfl
  · rw [heq]
    exact min_le_min (by nlinarith) le_rfl
  · intro outcomes rands ho hrands hsr
    have hpos : 0 < effMaxRetries cfg := shouldRetry_lt hsr
    obtain ⟨g, hg⟩ : ∃ g, effMaxRetries cfg = g + 1 :=
      ⟨effMaxRetries cfg - 1, by omega⟩
    unfold requestLoop requestLoopAux
    rw [ho]
    dsimp only
    rw [hsr]
    simp only [if_true, hg]
    have : getRetryDelay e 0 cfg (rands 0)
        = calculateBackoffDelay 0 (jsOrQ cfg.baseDelay 1000)
            (jsOrQ cfg.maxDelay 30000) rand := by
      unfold getRetryDelay
      rw [hhdr, hrands]
    simp [this]

/-- C6 witness: a network failure under the default policy at retry count 1
with jitter sample `1/2` waits `min(1000 * 2 + 250, 20000) = 2250` ms. -/
theorem c6_backoff_formula_witness :
    (0 : ℚ) ≤ 1 / 2 ∧
    getRetryDelay ⟨none, none⟩ 1 defaultConfig (1 / 2) = 2250 := by
  refine ⟨by norm_num, ?_⟩
  have h := (c6_backoff_formula ⟨none, none⟩ 1 defaultConfig (1 / 2) rfl
    (by norm_num) (by norm_num) (by norm_num [defaultConfig, jsOrQ])).1
  rw [h]
  norm_num [defaultConfig, jsOrQ]

lemma attemptEvents_no_acq_rel (outcomes : ℕ → Except ErrorMod ResponseMod)
    (rands : ℕ → ℚ) (cfg : RateLimiterConfig) :
    ∀ gas rc, REvent.acquire ∉ attemptEvents outcomes rands cfg gas rc
      ∧ REvent.release ∉ attemptEvents outcomes rands cfg gas rc := by
  intro gas
  induction gas with
  | zero =>
    intro rc
    unfold attemptEvents
    cases h : outcomes rc with
    | ok r => simp [h]
    | error e => simp [h]
  | succ g ih =>
    intro rc
    unfold attemptEvents
    cases h : outcomes rc with
    | ok r => simp [h]
    | error e =>
      by_cases hsr : shouldRetry e rc (effMaxRetries cfg) = true
      · simp only [h, hsr, if_true]
        simp [List.mem_cons, (ih (rc + 1)).1, (ih (rc + 1)).2]
      · simp [h, hsr]

/-- C2 (amended): the governor does NOT release the concurrency slot before a
backoff sleep — the whole retry loop runs inside the limiter callback, so the
slot is acquired exactly once, as the very first event, and released exactly
once, as the very last event; every backoff sleep happens while the slot is
held, and no re-acquisition occurs between attempts. -/
theorem c2_slot_held_through_loop (outcomes : ℕ → Except ErrorMod ResponseMod)
    (rands : ℕ → ℚ) (cfg : RateLimiterConfig) :
    (requestTrace outcomes rands cfg).head? = some REvent.acquire
    ∧ (requestTrace outcomes rands cfg).getLast? = some REvent.release
    ∧ (requestTrace outcomes rands cfg).count REvent.acquire = 1
    ∧ (requestTrace outcomes rands cfg).count REvent.release = 1 := by
  have h := attemptEvents_no_acq_rel outcomes rands cfg (effMaxRetries cfg) 0
  unfold requestTrace
  refine ⟨rfl, ?_, ?_, ?_⟩
  · show ((REvent.acquire :: attemptEvents outcomes rands cfg (effMaxRetries cfg) 0)
        ++ [REvent.release]).getLast? = some REvent.release
    rw [List.getLast?_concat]
  · simp [List.count_cons, List.count_append, List.count_eq_zero.mpr h.1]
  · simp [List.count_cons, List.count_append, List.count_eq_zero.mpr h.2]

/-- C2 counterexample: with one retryable failure followed by success under
the default policy, the backoff sleep (of 1000 ms) occurs at trace position 3
while no release has occurred among the first four events — the lease is
NOT released before the backoff sleep begins. -/
theorem c2_counterexample :
    requestTrace (fun k => if k = 0 then Except.error ⟨some ⟨503, none⟩, none⟩
        else Except.ok ⟨200, none⟩) (fun _ => 0) defaultConfig
      = [REvent.acquire, REvent.rateWait, REvent.httpCall 0,
         REvent.sleep (getRetryDelay ⟨some ⟨503, none⟩, none⟩ 0 defaultConfig 0),
         REvent.rateWait, REvent.httpCall 1, REvent.release]
    ∧ REvent.release ∉ [REvent.acquire, REvent.rateWait, REvent.httpCall 0,
         REvent.sleep (getRetryDelay ⟨some ⟨503, none⟩, none⟩ 0 defaultConfig 0)]
    ∧ getRetryDelay ⟨some ⟨503, none⟩, none⟩ 0 defaultConfig 0 = 1000 := by
  refine ⟨?_, by simp, ?_⟩
  · simp [requestTrace, attemptEvents, shouldRetry, effMaxRetries, jsOrN, defaultConfig]
  · unfold getRetryDelay
    simp only [Option.bind]
    norm_num [calculateBackoffDelay, jsOrQ, defaultConfig]

/-- C3 (amended): the spacing wait of `enforceRateLimit` is performed inside
the limiter callback, i.e. after the concurrency slot has been acquired
(the trace's first event is the acquisition); for two sequenced executions
of `enforceRateLimit` on the same domain (the second reading the watermark
written by the first), the second dispatch time is at least
`minRequestInterval` after the first; and the dispatch time is recorded as
the domain's new watermark. -/
theorem c3_min_interval_spacing (outcomes : ℕ → Except ErrorMod ResponseMod)
    (rands : ℕ → ℚ) (cfg : RateLimiterConfig)
    (m : String → ℚ) (d : String) (now1 now2 : ℚ) :
    (requestTrace outcomes rands cfg).head? = some REvent.acquire
    ∧ (enforceRateLimit m d now1).2 + minRequestInterval
        ≤ (enforceRateLimit (enforceRateLimit m d now1).1 d now2).2
    ∧ (enforceRateLimit m d now1).1 d = (enforceRateLimit m d now1).2 := by
  refine ⟨rfl, ?_, ?_⟩
  · unfold enforceRateLimit minRequestInterval
    dsimp only
    rw [if_pos rfl]
    split
    · split <;> linarith
    · split <;> linarith
  · unfold enforceRateLimit
    dsimp only
    rw [if_pos rfl]

/-- C3 counterexample: for a successful call under the default policy the
trace begins with the slot acquisition and only then performs the spacing
wait — the wait is NOT performed before consuming a concurrency slot. -/
theorem c3_counterexample :
    requestTrace (fun _ => Except.ok ⟨200, none⟩) (fun _ => 0) defaultConfig
      = [REvent.acquire, REvent.rateWait, REvent.httpCall 0, REvent.release]
    ∧ (requestTrace (fun _ => Except.ok ⟨200, none⟩) (fun _ => 0)
        defaultConfig).takeWhile (fun e => !(e == REvent.acquire)) = [] := by
  have h : requestTrace (fun _ => Except.ok ⟨200, none⟩) (fun _ => 0) defaultConfig
      = [REvent.acquire, REvent.rateWait, REvent.httpCall 0, REvent.release] := by
    simp [requestTrace, attemptEvents, effMaxRetries, jsOrN, defaultConfig]
  refine ⟨h, ?_⟩
  rw [h]
  rfl

lemma lookup_limitersList (k : String) :
    limitersList.lookup k
      = (rateLimitConfigList.lookup k).map (fun c => jsOrN c.concurrency 2) := by
  unfold limitersList
  generalize rateLimitConfigList = l
  induction l with
  | nil => rfl
  | cons p t ih =>
    cases p with
    | mk a b =>
      cases h : k == a <;> simp [List.lookup, h, ih]

/-- C8 counterexample: two distinct unconfigured domains do share a single
concurrency gate — `getLimiter` falls back to the one `'default'` limiter
for both, instead of lazily creating one gate per distinct domain. -/
theorem c8_counterexample :
    getLimiterKey "a.example.com" = getLimiterKey "b.example.org"
    ∧ ("a.example.com" : String) ≠ "b.example.org"
    ∧ rateLimitConfigList.lookup "a.example.com" = none
    ∧ rateLimitConfigList.lookup "b.example.org" = none
    ∧ getLimiterKey "a.example.com" = "default" := by
  refine ⟨by decide, by decide, by decide, by decide, by decide⟩

/-- C8 (amended): concurrency gates exist only for the constructor-configured
keys (four providers plus `'default'`), created eagerly at construction;
every domain without its own entry shares the single `'default'` gate.
Configured domains have their own, pairwise distinct gates, and the
`lastRequestTime` watermark is keyed by the exact domain: updating one
domain's watermark leaves every other domain's watermark unchanged. -/
theorem c8_domain_state_sharing (d d1 d2 : String) (c1 c2 : RateLimiterConfig)
    (hd : rateLimitConfigList.lookup d = none)
    (h1 : rateLimitConfigList.lookup d1 = some c1)
    (h2 : rateLimitConfigList.lookup d2 = some c2) (hne : d1 ≠ d2)
    (m : String → ℚ) (now : ℚ) (d' : String) (hd' : d' ≠ d) :
    getLimiterKey d = "default"
    ∧ getLimiterKey d1 = d1
    ∧ getLimiterKey d2 = d2
    ∧ getLimiterKey d1 ≠ getLimiterKey d2
    ∧ (enforceRateLimit m d now).1 d' = m d' := by
  have hld : limitersList.lookup d = none := by
    rw [lookup_limitersList, hd]
    rfl
  have hld1 : limitersList.lookup d1 = some (jsOrN c1.concurrency 2) := by
    rw [lookup_limitersList, h1]
    rfl
  have hld2 : limitersList.lookup d2 = some (jsOrN c2.concurrency 2) := by
    rw [lookup_limitersList, h2]
    rfl
  refine ⟨?_, ?_, ?_, ?_, ?_⟩
  · unfold getLimiterKey
    rw [hld]
    rfl
  · unfold getLimiterKey
    rw [hld1]
    rfl
  · unfold getLimiterKey
    rw [hld2]
    rfl
  · unfold getLimiterKey
    rw [hld1, hld2]
    simpa using hne
  · unfold enforceRateLimit
    dsimp only
    rw [if_neg hd']

/-- C8 witness: `"api.example.org"` is unconfigured and mapped to the default
gate; `"localhost"` and `"graphql.anilist.co"` are configured with distinct
gates; updating the watermark of `"api.example.org"` leaves
`"other.example"`'s watermark unchanged. -/
theorem c8_domain_state_sharing_witness :
    getLimiterKey "api.example.org" = "default"
    ∧ getLimiterKey "localhost" = "localhost"
    ∧ getLimiterKey "localhost" ≠ getLimiterKey "graphql.anilist.co"
    ∧ (enforceRateLimit (fun _ => 0) "api.example.org" 0).1 "other.example" = 0 := by
  have h := c8_domain_state_sharing "api.example.org" "localhost" "graphql.anilist.co"
    ⟨some 3, some 500, some 10000, some 5000, some 5⟩
    ⟨some 5, some 1000, some 30000, some 10000, some 2⟩
    (by decide) (by decide) (by decide) (by decide)
    (fun _ => 0) 0 "other.example" (by decide)
  exact ⟨h.1, h.2.1, h.2.2.2.1, h.2.2.2.2⟩

/-- C9: policy resolution is total and by exact hostname match — a parsed URL
resolves to its hostname (scheme, port and path ignored), every hostname
without a configured policy receives the `default` policy, and such a domain
runs under the default policy's retry budget (3) and concurrency cap (2);
the fallback is silent, not an error. -/
theorem c9_policy_resolution (parse : String → Option URLParts) (url : String)
    (p : URLParts) (hp : parse url = some p)
    (d : String) (hd : rateLimitConfigList.lookup d = none) :
    getDomain parse url = p.hostname
    ∧ (∀ q : URLParts, q.hostname = p.hostname →
        ∀ parse2 url2, parse2 url2 = some q →
          getDomain parse2 url2 = getDomain parse url)
    ∧ getConfig d = defaultConfig
    ∧ effMaxRetries (getConfig d) = 3
    ∧ jsOrN (getConfig d).concurrency 2 = 2
    ∧ getLimiterKey d = "default"
    ∧ capOf (getLimiterKey d) = 2 := by
  have hgd : getDomain parse url = p.hostname := by
    unfold getDomain
    rw [hp]
  have hgc : getConfig d = defaultConfig := by
    unfold getConfig
    rw [hd]
    rfl
  have hld : limitersList.lookup d = none := by
    rw [lookup_limitersList, hd]
    rfl
  have hkey : getLimiterKey d = "default" := by
    unfold getLimiterKey
    rw [hld]
    rfl
  refine ⟨hgd, ?_, hgc, ?_, ?_, hkey, ?_⟩
  · intro q hq parse2 url2 hp2
    unfold getDomain
    rw [hp, hp2]
    dsimp only
    rw [hq]
  · rw [hgc]
    decide
  · rw [hgc]
    decide
  · rw [hkey]
    decide

/-- C9 witness: a URL parsed with hostname `"x.example"` resolves to that
hostname, which is unconfigured and falls back to the default policy. -/
theorem c9_policy_resolution_witness :
    getDomain (fun _ => some ⟨"https", "x.example", some 443, "/p"⟩) "https://x.example/p"
        = "x.example"
    ∧ getConfig "x.example" = defaultConfig
    ∧ capOf (getLimiterKey "x.example") = 2 := by
  have h := c9_policy_resolution (fun _ => some ⟨"https", "x.example", some 443, "/p"⟩)
    "https://x.example/p" ⟨"https", "x.example", some 443, "/p"⟩ rfl
    "x.example" (by decide)
  exact ⟨h.1, h.2.2.1, h.2.2.2.2.2.2⟩

/-- C10: when the request config carries no URL (the empty string is then
used) or a URL the URL parser rejects, domain resolution returns the literal
key `'default'` without throwing, and the request proceeds under the default
policy: its gate (cap 2), retry budget (3) and delay bounds (base 1000 ms,
max 20000 ms). -/
theorem c10_default_on_bad_url (parse : String → Option URLParts)
    (hempty : parse "" = none) (configUrl : Option String)
    (hbad : ∀ u, configUrl = some u → parse u = none) :
    resolveDomain parse configUrl = "default"
    ∧ getConfig (resolveDomain parse configUrl) = defaultConfig
    ∧ getLimiterKey (resolveDomain parse configUrl) = "default"
    ∧ capOf "default" = 2
    ∧ effMaxRetries defaultConfig = 3
    ∧ jsOrQ defaultConfig.baseDelay 1000 = 1000
    ∧ jsOrQ defaultConfig.maxDelay 30000 = 20000 := by
  have hrd : resolveDomain parse configUrl = "default" := by
    unfold resolveDomain getDomain
    cases configUrl with
    | none => rw [hempty]
    | some u =>
      by_cases hu : u = ""
      · rw [hu]
        dsimp only
        rw [if_pos rfl, hempty]
      · dsimp only
        rw [if_neg hu, hbad u rfl]
  refine ⟨hrd, ?_, ?_, by decide, by decide, by norm_num [defaultConfig, jsOrQ],
    by norm_num [defaultConfig, jsOrQ]⟩
  · rw [hrd]
    decide
  · rw [hrd]
    decide

/-- C10 witness: a request config with no URL at all resolves to `'default'`
and the default policy. -/
theorem c10_default_on_bad_url_witness :
    resolveDomain (fun _ => none) none = "default"
    ∧ getConfig (resolveDomain (fun _ => none) none) = defaultConfig := by
  have h := c10_default_on_bad_url (fun _ => none) rfl none (fun u hu => by cases hu)
  exact ⟨h.1, h.2.1⟩

lemma countP_split {α : Type} (p r : α → Bool) (t : List α) :
    t.countP p
      = t.countP (fun a => p a && r a) + t.countP (fun a => p a && !(r a)) := by
  induction t with
  | nil => rfl
  | cons a t ih =>
    simp only [List.countP_cons, ih]
    cases hp : p a <;> cases hr : r a <;> simp [hp, hr] <;> omega

lemma startsKeyP_withD (k : String) (q : String → Bool) (d : String) (t : List CEv)
    (hkey : getLimiterKey d = k) (hq : q d = true) :
    t.countP (fun e => evIsStartOf k q e && evOfDomain d e) = startsD d t := by
  unfold startsD
  apply List.countP_congr
  intro e _
  cases e with
  | start x =>
    by_cases hx : x = d
    · subst hx
      simp [evIsStartOf, evOfDomain, hkey, hq]
    · simp [evIsStartOf, evOfDomain, hx]
  | finish x => simp [evIsStartOf, evOfDomain]

lemma startsKeyP_withoutD (k : String) (q : String → Bool) (d : String) (t : List CEv) :
    t.countP (fun e => evIsStartOf k q e && !(evOfDomain d e))
      = startsKeyP k (fun x => q x && !(x == d)) t := by
  unfold startsKeyP
  apply List.countP_congr
  intro e _
  cases e <;> simp [evIsStartOf, evOfDomain, Bool.and_assoc]

lemma finishesKeyP_withD (k : String) (q : String → Bool) (d : String) (t : List CEv)
    (hkey : getLimiterKey d = k) (hq : q d = true) :
    t.countP (fun e => evIsFinishOf k q e && evOfDomain d e) = finishesD d t := by
  unfold finishesD
  apply List.countP_congr
  intro e _
  cases e with
  | start x => simp [evIsFinishOf, evOfDomain]
  | finish x =>
    by_cases hx : x = d
    · subst hx
      simp [evIsFinishOf, evOfDomain, hkey, hq]
    · simp [evIsFinishOf, evOfDomain, hx]

lemma finishesKeyP_withoutD (k : String) (q : String → Bool) (d : String) (t : List CEv) :
    t.countP (fun e => evIsFinishOf k q e && !(evOfDomain d e))
      = finishesKeyP k (fun x => q x && !(x == d)) t := by
  unfold finishesKeyP
  apply List.countP_congr
  intro e _
  cases e <;> simp [evIsFinishOf, evOfDomain, Bool.and_assoc]

lemma startsKeyP_split_dom (k : String) (q : String → Bool) (d : String) (t : List CEv)
    (hkey : getLimiterKey d = k) (hq : q d = true) :
    startsKeyP k q t = startsD d t + startsKeyP k (fun x => q x && !(x == d)) t := by
  unfold startsKeyP
  rw [countP_split (evIsStartOf k q) (evOfDomain d) t,
    startsKeyP_withD k q d t hkey hq, startsKeyP_withoutD]
  rfl

lemma finishesKeyP_split_dom (k : String) (q : String → Bool) (d : String) (t : List CEv)
    (hkey : getLimiterKey d = k) (hq : q d = true) :
    finishesKeyP k q t = finishesD d t + finishesKeyP k (fun x => q x && !(x == d)) t := by
  unfold finishesKeyP
  rw [countP_split (evIsFinishOf k q) (evOfDomain d) t,
    finishesKeyP_withD k q d t hkey hq, finishesKeyP_withoutD]
  rfl

lemma startsKeyP_snoc_start (k : String) (q : String → Bool) (pre : List CEv) (d : String) :
    startsKeyP k q (pre ++ [CEv.start d])
      = startsKeyP k q pre + (if (getLimiterKey d == k) && q d then 1 else 0) := by
  unfold startsKeyP
  rw [List.countP_append]
  simp [evIsStartOf, List.countP_cons]

lemma startsKeyP_snoc_finish (k : String) (q : String → Bool) (pre : List CEv) (d : String) :
    startsKeyP k q (pre ++ [CEv.finish d]) = startsKeyP k q pre := by
  unfold startsKeyP
  rw [List.countP_append]
  simp [evIsStartOf, List.countP_cons]

lemma finishesKeyP_snoc_start (k : String) (q : String → Bool) (pre : List CEv) (d : String) :
    finishesKeyP k q (pre ++ [CEv.start d]) = finishesKeyP k q pre := by
  unfold finishesKeyP
  rw [List.countP_append]
  simp [evIsFinishOf, List.countP_cons]

lemma finishesKeyP_snoc_finish (k : String) (q : String → Bool) (pre : List CEv) (d : String) :
    finishesKeyP k q (pre ++ [CEv.finish d])
      = finishesKeyP k q pre + (if (getLimiterKey d == k) && q d then 1 else 0) := by
  unfold finishesKeyP
  rw [List.countP_append]
  simp [evIsFinishOf, List.countP_cons]

lemma activeKey_snoc_start (k : String) (pre : List CEv) (d : String) :
    activeKey k (pre ++ [CEv.start d])
      = activeKey k pre + (if getLimiterKey d == k then 1 else 0) := by
  unfold activeKey
  rw [startsKeyP_snoc_start, finishesKeyP_snoc_start]
  cases h : getLimiterKey d == k
  all_goals simp [h]
  all_goals omega

lemma activeKey_snoc_finish (k : String) (pre : List CEv) (d : String) :
    activeKey k (pre ++ [CEv.finish d])
      = activeKey k pre - (if getLimiterKey d == k then 1 else 0) := by
  unfold activeKey
  rw [startsKeyP_snoc_finish, finishesKeyP_snoc_finish]
  cases h : getLimiterKey d == k
  all_goals simp [h]
  all_goals omega

lemma traceInv_nil : TraceInv [] := by
  refine ⟨fun k q => ?_, fun k => ?_⟩
  · simp [finishesKeyP, startsKeyP]
  · simp only [activeKey, startsKeyP, finishesKeyP, List.countP_nil]
    omega

lemma traceInv_snoc {pre : List CEv} {e : CEv} (h : TraceInv pre)
    (hok : stepOk pre e = true) : TraceInv (pre ++ [e]) := by
  obtain ⟨hQ, hA⟩ := h
  cases e with
  | start d =>
    refine ⟨fun k q => ?_, fun k => ?_⟩
    · rw [startsKeyP_snoc_start, finishesKeyP_snoc_start]
      have := hQ k q
      split <;> omega
    · rw [activeKey_snoc_start]
      by_cases hk : getLimiterKey d = k
      · have hlt : activeKey (getLimiterKey d) pre < (capOf (getLimiterKey d) : ℤ) := by
          unfold stepOk at hok
          simpa using hok
        rw [hk] at hlt
        simp [hk]
        omega
      · have : (getLimiterKey d == k) = false := by
          simpa using hk
        simp [this]
        exact hA k
  | finish d =>
    have hfl : finishesD d pre < startsD d pre := by
      unfold stepOk inFlight at hok
      simp only [decide_eq_true_eq] at hok
      omega
    refine ⟨fun k q => ?_, fun k => ?_⟩
    · rw [startsKeyP_snoc_finish, finishesKeyP_snoc_finish]
      by_cases hcond : ((getLimiterKey d == k) && q d) = true
      · simp only [hcond, if_true]
        have hkey : getLimiterKey d = k := by
          have := (Bool.and_eq_true _ _).mp hcond
          simpa using this.1
        have hq : q d = true := ((Bool.and_eq_true _ _).mp hcond).2
        rw [startsKeyP_split_dom k q d pre hkey hq,
          finishesKeyP_split_dom k q d pre hkey hq]
        have := hQ k (fun x => q x && !(x == d))
        omega
      · rw [Bool.not_eq_true] at hcond
        simp [hcond]
        have := hQ k q
        omega
    · rw [activeKey_snoc_finish]
      have := hA k
      split <;> omega

lemma traceInv_validAux : ∀ t pre, TraceInv pre → validAux pre t = true →
    TraceInv (pre ++ t) := by
  intro t
  induction t with
  | nil =>
    intro pre h _
    simpa using h
  | cons e rest ih =>
    intro pre h hv
    simp only [validAux, Bool.and_eq_true] at hv
    have h1 := traceInv_snoc h hv.1
    have h2 := ih (pre ++ [e]) h1 hv.2
    simpa [List.append_assoc] using h2

lemma validAux_take : ∀ t pre n, validAux pre t = true →
    validAux pre (t.take n) = true := by
  intro t
  induction t with
  | nil =>
    intro pre n _
    simp [List.take_nil]
    rfl
  | cons e rest ih =>
    intro pre n h
    cases n with
    | zero => rfl
    | succ m =>
      simp only [List.take, validAux, Bool.and_eq_true] at h ⊢
      exact ⟨h.1, ih (pre ++ [e]) m h.2⟩

lemma inFlight_le_activeKey (d : String) (t : List CEv)
    (hQ : ∀ q, finishesKeyP (getLimiterKey d) q t ≤ startsKeyP (getLimiterKey d) q t) :
    inFlight d t ≤ activeKey (getLimiterKey d) t := by
  unfold inFlight activeKey
  rw [startsKeyP_split_dom (getLimiterKey d) (fun _ => true) d t rfl rfl,
    finishesKeyP_split_dom (getLimiterKey d) (fun _ => true) d t rfl rfl]
  have := hQ (fun x => true && !(x == d))
  omega

lemma capOf_key_eq (d : String) :
    capOf (getLimiterKey d) = jsOrN (getConfig d).concurrency 2 := by
  cases h : rateLimitConfigList.lookup d with
  | some c =>
    have hl : limitersList.lookup d = some (jsOrN c.concurrency 2) := by
      rw [lookup_limitersList, h]
      rfl
    have hkey : getLimiterKey d = d := by
      unfold getLimiterKey
      rw [hl]
      rfl
    unfold capOf getConfig
    rw [hkey, hl, h]
    rfl
  | none =>
    have hl : limitersList.lookup d = none := by
      rw [lookup_limitersList, h]
      rfl
    have hkey : getLimiterKey d = "default" := by
      unfold getLimiterKey
      rw [hl]
      rfl
    unfold capOf getConfig
    rw [hkey, h]
    decide

/-- C4: along every trace the `p-limit` instances can produce, at every
instant (prefix), the number of in-flight HTTP calls to any domain `d` never
exceeds `d`'s configured concurrency cap (`concurrency || 2` of the policy
resolved for `d`); unconfigured domains share the default limiter, whose cap
equals their resolved default policy's cap. -/
theorem c4_concurrency_cap (t : List CEv) (ht : validTrace t = true)
    (n : ℕ) (d : String) :
    inFlight d (t.take n) ≤ (jsOrN (getConfig d).concurrency 2 : ℤ) := by
  have hv : validAux [] (t.take n) = true := validAux_take t [] n ht
  have hInv : TraceInv ([] ++ t.take n) :=
    traceInv_validAux (t.take n) [] traceInv_nil hv
  rw [List.nil_append] at hInv
  have h1 : inFlight d (t.take n) ≤ activeKey (getLimiterKey d) (t.take n) :=
    inFlight_le_activeKey d _ (fun q => hInv.1 _ q)
  have h2 := hInv.2 (getLimiterKey d)
  have h3 := capOf_key_eq d
  omega

/-- C4 witness: in a concrete valid trace — two unconfigured domains sharing
the default limiter with a third start admitted only after a finish — the
in-flight count of `"a.example"` stays within the default cap 2. -/
theorem c4_concurrency_cap_witness :
    validTrace [CEv.start "a.example", CEv.start "b.example",
        CEv.finish "a.example", CEv.start "a.example"] = true
    ∧ inFlight "a.example"
        ([CEv.start "a.example", CEv.start "b.example",
          CEv.finish "a.example", CEv.start "a.example"].take 4)
        ≤ (jsOrN (getConfig "a.example").concurrency 2 : ℤ) := by
  refine ⟨by decide, ?_⟩
  exact c4_concurrency_cap _ (by decide) 4 "a.example"

end SafeRequest
